import Mathlib

/-!
# Verification of the midgard position/conversion spec

Shallow embedding of the midgard repository's position framework and the
Terrapos position parser, with theorems settling the spec's claims.

The Terrapos parser (`midgard/parsers/terrapos_position.py`) is embedded
directly from its source.  The position module (`midgard/data/position.py`)
is not part of the sample set — only its tests are — so its machinery
(system registry, semantic arrays, deltas, slicing, caching) is modelled
from the specification text; the doc comments of those definitions say so
explicitly.  Numeric data is modelled as exact rationals.
-/

namespace Midgard

/-! ## Terrapos position parser (`terrapos_position.py`): definitions

Numeric columns are lists of exact rationals; the float constant
`Unit.deg2rad` is kept as an abstract rational parameter. -/

/-- The column names returned by `TerraposPositionParser.setup_parser`, in
order (the `names` tuple passed to `np.genfromtxt`). -/
def terraposColumnNames : List String :=
  ["gpsweek", "gpssec", "lat", "lon", "height", "roll", "pitch", "head",
   "sigma_north", "sigma_east", "sigma_height", "sigma_roll", "sigma_pitch",
   "sigma_head", "num_sat", "pdop", "reliability_north", "reliability_east",
   "reliability_height"]

/-- Parsed data: an association list from column name to the numeric column,
modelling `self.data` after `np.genfromtxt`. -/
def TerraposData : Type := List (String × List ℚ)

/-- Look a column up in the parsed data (`self.data[key]`). -/
def getCol (data : TerraposData) (key : String) : List ℚ :=
  (List.lookup key data).getD []

/-- The `time` field added by `dset.add_time`: `val`, `val2`, `scale`, `fmt`. -/
structure TimeField where
  val : List ℚ
  val2 : List ℚ
  scale : String
  fmt : String
deriving DecidableEq, Repr

/-- The `site_pos` field added by `dset.add_position`: system name and the
`(N, 3)` value array. -/
structure PositionField where
  system : String
  valRows : List (List ℚ)
deriving DecidableEq, Repr

/-- The dataset built by `TerraposPositionParser.as_dataset`. -/
structure Dataset where
  numObs : Nat
  floats : List (String × List ℚ)
  time : Option TimeField
  sitePos : Option PositionField
  texts : List (String × List String)
deriving DecidableEq, Repr

/-- Rows of `np.stack((a, b, c), axis=1)`: row `i` is `[a i, b i, c i]`. -/
def stack3 : List ℚ → List ℚ → List ℚ → List (List ℚ)
  | a :: as, b :: bs, c :: cs => [a, b, c] :: stack3 as bs cs
  | _, _, _ => []

/-- `TerraposPositionParser.as_dataset`: every column except `gpsweek` and
`gpssec` becomes a float field with its values unchanged; `gpsweek`/`gpssec`
build the `time` field (scale `gps`, format `gps_ws`); `site_pos` is added in
system `llh` from `lat * deg2rad`, `lon * deg2rad`, `height` stacked on
axis 1; a `station` text field is added when a station name is set. -/
def asDataset (deg2rad : ℚ) (data : TerraposData) (station : Option String) :
    Dataset :=
  let numObs := (getCol data ("gpsweek")).length
  { numObs := numObs
    floats := data.filter fun p => !(p.1 == "gpsweek" || p.1 == "gpssec")
    time := some { val := getCol data ("gpsweek"), val2 := getCol data ("gpssec"),
                   scale := "gps", fmt := "gps_ws" }
    sitePos := some { system := "llh",
                      valRows := stack3 ((getCol data ("lat")).map (· * deg2rad))
                                        ((getCol data ("lon")).map (· * deg2rad))
                                        (getCol data ("height")) }
    texts := match station with
             | some st => [("station", List.replicate numObs st)]
             | none => [] }

/-! ## Position framework: definitions

The module `midgard/data/position.py` is not in the sample set (only its
tests are), so everything below is modelled from the specification. -/

/-- Modelled from the spec: the reference-system identifiers named by the
spec (`trs`, `llh`, `enu`, `acr`); `midgard/data/position.py` is missing. -/
inductive SysName
  | trs
  | llh
  | enu
  | acr
deriving DecidableEq, Repr

/-- All known system identifiers, the node set of the conversion graph. -/
def allSystems : List SysName := [.trs, .llh, .enu, .acr]

/-- Modelled from the spec: the system registry holds, for ordered system
pairs, whether a direct converter is registered (`edge`) and the converter
function itself (`conv`, meaningful only on registered edges); the registry
code of `midgard/data/position.py` is missing. -/
structure Registry where
  edge : SysName → SysName → Bool
  conv : SysName → SysName → List ℚ → List ℚ

/-- Modelled from the spec: the error taxonomy of §7 (`UnknownConversionError`
naming both systems, `ShapeError` naming expected and actual width,
`MissingReferencePointError`); `midgard/dev/exceptions.py` is missing. -/
inductive PosError
  | unknownConversion (fromSys toSys : SysName)
  | shapeError (expected actual : Nat)
  | missingRefPoint
deriving DecidableEq, Repr

/-- Breadth-first search over the registered converter graph.  Queue entries
are paths stored target-end first (most recently reached system at the
head); `visited` prevents revisiting.  Returns the found path, still stored
target-end first, or `none`. -/
def bfsAux (E : SysName → SysName → Bool) (target : SysName) :
    Nat → List (List SysName) → List SysName → Option (List SysName)
  | 0, _, _ => none
  | _ + 1, [], _ => none
  | fuel + 1, [] :: queue, visited => bfsAux E target fuel queue visited
  | fuel + 1, (cur :: ps) :: queue, visited =>
    if cur = target then some (cur :: ps)
    else
      let nexts := allSystems.filter fun n => E cur n && !(visited.contains n)
      bfsAux E target fuel (queue ++ nexts.map fun n => n :: cur :: ps)
        (visited ++ nexts)

/-- Modelled from the spec (§4.1): shortest chain of registered converters
from `s` to `t`, found by breadth-first search; `none` when no path exists.
The path is returned target-end first.  The fuel `32` is ample: with four
systems the queue receives at most five entries over a whole run. -/
def findPath (E : SysName → SysName → Bool) (s t : SysName) :
    Option (List SysName) :=
  bfsAux E t 32 [[s]] [s]

/-- Compose the registered converters along a path stored target-end first:
for `[t, m, s]` this applies `conv s m`, then `conv m t`, i.e. the chain's
converters in order. -/
def composeRev (conv : SysName → SysName → List ℚ → List ℚ) :
    List SysName → List ℚ → List ℚ
  | a :: b :: rest, r => conv b a (composeRev conv (b :: rest) r)
  | _, r => r

/-- A path stored target-end first is a chain of registered edges: each
consecutive pair `a :: b :: _` is a registered edge from `b` to `a`. -/
def revChainOk (E : SysName → SysName → Bool) : List SysName → Bool
  | a :: b :: rest => E b a && revChainOk E (b :: rest)
  | _ => true

/-- Modelled from the spec (§3, §4.2): the semantic array — a numeric buffer
of rows tagged with its native system, a scalar-vs-batch flag, the
has-velocity capability flag, and the optional auxiliary `other` array;
`midgard/data/position.py` is missing.  A scalar instance holds exactly one
row with `scalar = true`. -/
structure SemArray where
  rows : List (List ℚ)
  scalar : Bool
  hasVel : Bool
  system : SysName
  other : Option (List (List ℚ))
deriving DecidableEq, Repr

/-- Required buffer width per kind: 3 for position-only, 6 for
position+velocity (§3). -/
def widthOf (hasVel : Bool) : Nat := if hasVel then 6 else 3

/-- Trailing dimension of a buffer: the width of its rows (numpy buffers are
rectangular, so the first row's width). -/
def trailingDim (data : List (List ℚ)) : Nat := (data.headD []).length

/-- Modelled from the spec (§4.2, §6): construction validates the buffer's
trailing dimension against the declared kind's required width and fails with
`ShapeError` naming expected and actual width on mismatch;
`midgard/data/position.py` is missing. -/
def SemArray.new (hasVel : Bool) (data : List (List ℚ)) (scalar : Bool)
    (system : SysName) (other : Option (List (List ℚ))) :
    Except PosError SemArray :=
  if data.all fun r => r.length == widthOf hasVel then
    .ok { rows := data, scalar := scalar, hasVel := hasVel, system := system,
          other := other }
  else
    .error (.shapeError (widthOf hasVel) (trailingDim data))

/-- The result of a conversion: same buffer shape and auxiliary data, rows
mapped through the composed converter, system replaced by the target. -/
def SemArray.withConverted (a : SemArray) (tgt : SysName)
    (f : List ℚ → List ℚ) : SemArray :=
  { rows := a.rows.map f, scalar := a.scalar, hasVel := a.hasVel,
    system := tgt, other := a.other }

/-- Modelled from the spec (§4.1): conversion dispatch.  Self-conversion is
the identity and returns the instance unchanged; otherwise the breadth-first
search finds a chain of registered converters which are composed in order
and applied to every row; if no path exists the call fails with
`UnknownConversionError` naming both systems.  `midgard/data/position.py`
is missing. -/
def convert (reg : Registry) (a : SemArray) (tgt : SysName) :
    Except PosError SemArray :=
  if a.system = tgt then .ok a
  else
    match findPath reg.edge a.system tgt with
    | some p => .ok (a.withConverted tgt (composeRev reg.conv p))
    | none => .error (.unknownConversion a.system tgt)

/-- Normalize a (possibly negative) integer index against a length, ordinary
sequence semantics: negative indices count from the end; out of range gives
`none` (the spec's `IndexError`). -/
def normIdx (n : Nat) (i : Int) : Option Nat :=
  let j : Int := if i < 0 then i + n else i
  if 0 ≤ j ∧ j < n then some j.toNat else none

/-- Row `j` of a buffer. -/
def rowAt (rows : List (List ℚ)) (j : Nat) : List ℚ := rows.getD j []

/-- The scalar instance holding row `j` of a batch instance, with the
auxiliary `other` array projected to its row `j` in lockstep (§4.4). -/
def SemArray.scalarAt (a : SemArray) (j : Nat) : SemArray :=
  { rows := [rowAt a.rows j], scalar := true, hasVel := a.hasVel,
    system := a.system, other := a.other.map fun o => [rowAt o j] }

/-- Modelled from the spec (§4.4): integer indexing on a batch instance
returns a scalar instance of the same system holding that row, with the
auxiliary array indexed identically; `midgard/data/position.py` is
missing. -/
def SemArray.getIdx (a : SemArray) (i : Int) : Option SemArray :=
  (normIdx a.rows.length i).map a.scalarAt

/-- Rows `i` (inclusive) to `j` (exclusive) of a list, basic slice
semantics. -/
def sliceRows {α : Type} (l : List α) (i j : Nat) : List α :=
  (l.drop i).take (j - i)

/-- Modelled from the spec (§4.4): slice indexing returns a batch instance
holding the selected rows, with the auxiliary array sliced identically and
still attached; `midgard/data/position.py` is missing. -/
def SemArray.sliceIdx (a : SemArray) (i j : Nat) : SemArray :=
  { rows := sliceRows a.rows i j, scalar := a.scalar, hasVel := a.hasVel,
    system := a.system, other := a.other.map fun o => sliceRows o i j }

/-- Modelled from the spec (§3, §4.3): a delta instance — a semantic array
together with its owning reference point, a plain absolute instance (never
a cycle, §9); `midgard/data/position.py` is missing. -/
structure DeltaArray where
  rows : List (List ℚ)
  scalar : Bool
  hasVel : Bool
  system : SysName
  refPos : SemArray
  other : Option (List (List ℚ))
deriving DecidableEq, Repr

/-- Modelled from the spec (§4.4): integer indexing on a batch delta returns
a scalar delta holding that row; the reference point is indexed with the
same index, or — when its leading dimension is 1 — reused unchanged for all
rows (the one-reference-point-for-many-deltas broadcast);
`midgard/data/position.py` is missing. -/
def DeltaArray.getIdx (d : DeltaArray) (i : Int) : Option DeltaArray :=
  (normIdx d.rows.length i).map fun j =>
    { rows := [rowAt d.rows j], scalar := true, hasVel := d.hasVel,
      system := d.system,
      refPos := if d.refPos.rows.length = 1 then d.refPos
                else d.refPos.scalarAt j,
      other := d.other.map fun o => [rowAt o j] }

/-- Modelled from the spec (§4.3): the delta-side registry — registered
converter edges between delta systems, the converter functions (which may
use the reference point, e.g. to build a rotation from its latitude and
longitude), and, per target frame, the system the reference point must be
convertible to in order to define that frame's orientation (`none` when the
frame needs no reference orientation); `midgard/data/position.py` is
missing. -/
structure DeltaRegistry where
  edge : SysName → SysName → Bool
  conv : SysName → SysName → SemArray → List ℚ → List ℚ
  frameDef : SysName → Option SysName

/-- Compose the registered delta converters along a path stored target-end
first, the reference point supplied to every step. -/
def composeRevDelta (conv : SysName → SysName → SemArray → List ℚ → List ℚ)
    (ref : SemArray) : List SysName → List ℚ → List ℚ
  | a :: b :: rest, r => conv b a ref (composeRevDelta conv ref (b :: rest) r)
  | _, r => r

/-- Modelled from the spec (§4.3): whether the reference point can support
the definition of the target delta frame — either the target frame needs no
defining system, or the reference point converts to that system
successfully. -/
def refSupports (absReg : Registry) (ref : SemArray) (tgt : SysName)
    (frameDef : SysName → Option SysName) : Bool :=
  match frameDef tgt with
  | none => true
  | some defSys =>
    match convert absReg ref defSys with
    | .ok _ => true
    | .error _ => false

/-- Modelled from the spec (§4.1, §4.3, §7): delta conversion dispatch.
Self-conversion is the identity.  Otherwise the reference point must be
convertible to the system defining the target frame's orientation and a
chain of registered delta converters must exist; the chain is composed in
order over every row with the reference point supplied, and the result
carries the reference point re-used consistently.  If the reference point
cannot support the target frame, or no path exists, the call fails with
`UnknownConversionError` naming both systems; `midgard/data/position.py`
is missing. -/
def convertDelta (absReg : Registry) (dreg : DeltaRegistry) (d : DeltaArray)
    (tgt : SysName) : Except PosError DeltaArray :=
  if d.system = tgt then .ok d
  else if refSupports absReg d.refPos tgt dreg.frameDef then
    match findPath dreg.edge d.system tgt with
    | some p =>
      .ok { rows := d.rows.map (composeRevDelta dreg.conv d.refPos p),
            scalar := d.scalar, hasVel := d.hasVel, system := tgt,
            refPos := d.refPos, other := d.other }
    | none => .error (.unknownConversion d.system tgt)
  else .error (.unknownConversion d.system tgt)

/-- Column `k` of a buffer, the value of a native field accessor on every
row (§4.2). -/
def colVals (rows : List (List ℚ)) (k : Nat) : List ℚ :=
  rows.map fun r => r.getD k 0

/-- Modelled from the spec (§4.2): the `east` native field of an `enu`
delta, column 0 of the buffer; `midgard/data/position.py` is missing. -/
def DeltaArray.east (d : DeltaArray) : List ℚ := colVals d.rows 0

/-- Modelled from the spec (§4.2): the `x` native field of a `trs` instance,
column 0 of the buffer; `midgard/data/position.py` is missing. -/
def SemArray.xField (a : SemArray) : List ℚ := colVals a.rows 0

/-- Modelled from the spec (§4.2, §9): an instance together with its
explicit per-instance memoization map of already-computed system views;
`midgard/data/position.py` is missing. -/
structure CachedArray where
  arr : SemArray
  cache : List (SysName × SemArray)
deriving DecidableEq, Repr

/-- Modelled from the spec (§4.2, §9): attribute access of a system name,
with per-instance lazy caching.  A cached view is returned as stored; a
cache miss computes the conversion once and stores it.  The third component
reports whether a conversion was computed (`true`) or the stored view was
served (`false`); `midgard/data/position.py` is missing. -/
def accessSystem (reg : Registry) (c : CachedArray) (s : SysName) :
    CachedArray × Except PosError SemArray × Bool :=
  match List.lookup s c.cache with
  | some v => (c, .ok v, false)
  | none =>
    match convert reg c.arr s with
    | .ok v => ({ arr := c.arr, cache := (s, v) :: c.cache }, .ok v, true)
    | .error e => (c, .error e, true)

/-! ## Concrete instances used by the claims and witnesses -/

/-- Ny-Ålesund, first row of the spec's concrete scenario. -/
def nyAlesundRow : List ℚ := [1202462.5677, 252734.4956, 6237766.1746]

/-- Wettzell, second row of the spec's concrete scenario. -/
def wettzellRow : List ℚ := [4075539.6734, 931735.4828, 4801629.4955]

/-- Westford, third row of the spec's concrete scenario. -/
def westfordRow : List ℚ := [1492404.5274, -4457266.5326, 4296881.8189]

/-- The batch `trs` Position of the concrete scenario, with the attached
auxiliary array of `test_slice_and_columns`. -/
def testPos : SemArray :=
  { rows := [nyAlesundRow, wettzellRow, westfordRow], scalar := false,
    hasVel := false, system := .trs,
    other := some [[1, 2, 3], [4, 5, 6], [7, 8, 9]] }

/-- The `enu` PositionDelta of the concrete scenario, whose reference point
is `testPos`. -/
def testDelta : DeltaArray :=
  { rows := [[0.1, 0.2, 0.3], [0.4, 0.5, 0.6], [0.7, 0.8, 0.9]],
    scalar := false, hasVel := false, system := .enu, refPos := testPos,
    other := none }

/-- A concrete witness registry: a converter pair between `trs` and `llh`
that scales by 2 one way and by 1/2 the other. -/
def regW : Registry where
  edge a b :=
    match a, b with
    | .trs, .llh => true
    | .llh, .trs => true
    | _, _ => false
  conv a b r :=
    match a, b with
    | .trs, .llh => r.map (· * 2)
    | .llh, .trs => r.map (· / 2)
    | _, _ => r

/-- Interpretation of coordinates as physical values for `regW`: `llh`
coordinates are the doubled physical values, every other system's
coordinates are the physical values themselves. -/
def interpW : SysName → List ℚ → List ℚ
  | .llh, r => r.map (· / 2)
  | _, r => r

/-- A concrete scalar `trs` instance for witnesses. -/
def witnessPos : SemArray :=
  { rows := [[1, 2, 3]], scalar := true, hasVel := false, system := .trs,
    other := none }

/-- `witnessPos` converted to `llh` under `regW`. -/
def witnessPosLlh : SemArray :=
  { rows := [[2, 4, 6]], scalar := true, hasVel := false, system := .llh,
    other := none }

/-- A concrete witness delta registry: a delta converter pair between `trs`
and `enu`, with `enu` and `acr` frames defined by the reference point's
`llh` coordinates. -/
def dregW : DeltaRegistry where
  edge a b :=
    match a, b with
    | .trs, .enu => true
    | .enu, .trs => true
    | _, _ => false
  conv _ _ _ r := r
  frameDef s :=
    match s with
    | .enu => some .llh
    | .acr => some .llh
    | _ => none

/-- A reference point stranded in `enu`, from which `regW` registers no
conversion at all. -/
def orphanRef : SemArray :=
  { rows := [[5, 6, 7]], scalar := true, hasVel := false, system := .enu,
    other := none }

/-- A scalar `trs` delta whose reference point `orphanRef` cannot be
converted to `llh`, the system defining the `enu` frame. -/
def orphanDelta : DeltaArray :=
  { rows := [[1, 2, 3]], scalar := true, hasVel := false, system := .trs,
    refPos := orphanRef, other := none }

/-- A one-row reference point for the broadcast witness. -/
def broadcastRef : SemArray :=
  { rows := [[10, 20, 30]], scalar := true, hasVel := false, system := .trs,
    other := none }

/-- A three-row delta backed by the single-row `broadcastRef`. -/
def broadcastDelta : DeltaArray :=
  { rows := [[1, 1, 1], [2, 2, 2], [3, 3, 3]], scalar := false,
    hasVel := false, system := .enu, refPos := broadcastRef, other := none }

/-- An empty conversion cache around `witnessPos`. -/
def cachedStart : CachedArray := { arr := witnessPos, cache := [] }

/-- The cache state after the `llh` view of `witnessPos` was computed. -/
def cachedAfter : CachedArray :=
  { arr := witnessPos, cache := [(.llh, witnessPosLlh)] }

/-- A two-observation sample of parsed Terrapos data (the two data lines of
the format example in `setup_parser`, abbreviated to six columns). -/
def sampleData : TerraposData :=
  [("gpsweek", [1972, 1972]), ("gpssec", [518430, 518460]),
   ("lat", [70.083249333, 70.083251198]), ("lon", [29.735357183, 29.735329955]),
   ("height", [56.7994, 56.2342]), ("pdop", [3.5, 3.5])]

/-! ## Helper lemmas -/

theorem lookup_filter_nonkey {α : Type} [DecidableEq α] {β : Type}
    (l : List (α × β)) (p : α → Bool) (k : α) (hk : p k = true) :
    List.lookup k (l.filter fun q => p q.1) = List.lookup k l := by
  induction l with
  | nil => rfl
  | cons q l ih =>
    obtain ⟨a, v⟩ := q
    by_cases hka : k = a
    · subst hka
      simp [List.filter_cons, hk, List.lookup]
    · have hbeq : (k == a) = false := by simpa using hka
      by_cases hpa : p a
      · simp [List.filter_cons, hpa, List.lookup, hbeq, ih]
      · simp [List.filter_cons, hpa, List.lookup, hbeq, ih]

theorem lookup_filter_key {α : Type} [DecidableEq α] {β : Type}
    (l : List (α × β)) (p : α → Bool) (k : α) (hk : p k = false) :
    List.lookup k (l.filter fun q => p q.1) = none := by
  induction l with
  | nil => rfl
  | cons q l ih =>
    obtain ⟨a, v⟩ := q
    by_cases hpa : p a
    · have hka : k ≠ a := fun h => by rw [h, hpa] at hk; exact Bool.noConfusion hk
      have hbeq : (k == a) = false := by simpa using hka
      simp [List.filter_cons, hpa, List.lookup, hbeq, ih]
    · simp [List.filter_cons, hpa, ih]

theorem stack3_getElem (as bs cs : List ℚ) (i : Nat) (ha : i < as.length)
    (hb : i < bs.length) (hc : i < cs.length) :
    (stack3 as bs cs)[i]? = some [as[i], bs[i], cs[i]] := by
  induction as generalizing bs cs i with
  | nil => simp at ha
  | cons a as ih =>
    cases bs with
    | nil => simp at hb
    | cons b bs =>
      cases cs with
      | nil => simp at hc
      | cons c cs =>
        cases i with
        | zero => simp [stack3]
        | succ n =>
          simp only [List.length_cons, Nat.succ_lt_succ_iff] at ha hb hc
          simp only [stack3, List.getElem?_cons_succ, List.getElem_cons_succ]
          exact ih bs cs n ha hb hc

/-! ## Theorems for the Terrapos parser claims -/

/-- C9: `as_dataset` builds `site_pos` in system `llh` as an `(N, 3)` array
whose columns are latitude times the degrees-to-radians factor, longitude
times the degrees-to-radians factor, and height unchanged, for every parsed
row. -/
theorem site_pos_llh (deg2rad : ℚ) (data : TerraposData)
    (station : Option String) (i : Nat)
    (hla : i < (getCol data ("lat")).length)
    (hlo : i < (getCol data ("lon")).length)
    (hh : i < (getCol data ("height")).length) :
    ∃ pf, (asDataset deg2rad data station).sitePos = some pf ∧
      pf.system = "llh" ∧
      pf.valRows[i]? = some [(getCol data ("lat"))[i] * deg2rad,
                             (getCol data ("lon"))[i] * deg2rad,
                             (getCol data ("height"))[i]] := by
  refine ⟨_, rfl, rfl, ?_⟩
  have h := stack3_getElem ((getCol data ("lat")).map (· * deg2rad))
      ((getCol data ("lon")).map (· * deg2rad)) (getCol data ("height")) i
      (by simpa using hla) (by simpa using hlo) hh
  rw [h]
  simp

/-- Witness for C9 on `sampleData` at row 0 with factor 1/100. -/
theorem site_pos_llh_witness :
    0 < (getCol sampleData ("lat")).length ∧
    0 < (getCol sampleData ("lon")).length ∧
    0 < (getCol sampleData ("height")).length ∧
    ∃ pf, (asDataset (1 / 100) sampleData none).sitePos = some pf ∧
      pf.system = "llh" ∧
      pf.valRows[0]? = some [(70.083249333 : ℚ) * (1 / 100),
                             (29.735357183 : ℚ) * (1 / 100), 56.7994] := by
  have h1 : 0 < (getCol sampleData ("lat")).length := by decide
  have h2 : 0 < (getCol sampleData ("lon")).length := by decide
  have h3 : 0 < (getCol sampleData ("height")).length := by decide
  exact ⟨h1, h2, h3, site_pos_llh (1 / 100) sampleData none 0 h1 h2 h3⟩

/-- C10: every parsed column except `gpsweek` and `gpssec` is added as a
float field with its values unchanged; `gpsweek` and `gpssec` are not added
as float fields and only build the `time` field (GPS week and seconds of
week, `gps` scale, `gps_ws` format). -/
theorem float_fields_passthrough (deg2rad : ℚ) (data : TerraposData)
    (station : Option String) (k : String)
    (hk1 : k ≠ "gpsweek") (hk2 : k ≠ "gpssec") :
    List.lookup k (asDataset deg2rad data station).floats =
      List.lookup k data ∧
    List.lookup ("gpsweek") (asDataset deg2rad data station).floats = none ∧
    List.lookup ("gpssec") (asDataset deg2rad data station).floats = none ∧
    (asDataset deg2rad data station).time =
      some { val := getCol data ("gpsweek"), val2 := getCol data ("gpssec"),
             scale := "gps", fmt := "gps_ws" } := by
  refine ⟨?_, ?_, ?_, rfl⟩
  · have h := lookup_filter_nonkey data
      (fun s => !(s == "gpsweek" || s == "gpssec")) k (by simp [hk1, hk2])
    simpa [asDataset] using h
  · have h := lookup_filter_key data
      (fun s => !(s == "gpsweek" || s == "gpssec")) ("gpsweek") (by simp)
    simpa [asDataset] using h
  · have h := lookup_filter_key data
      (fun s => !(s == "gpsweek" || s == "gpssec")) ("gpssec") (by simp)
    simpa [asDataset] using h

/-- Witness for C10 on `sampleData` with the `pdop` column. -/
theorem float_fields_passthrough_witness :
    ("pdop" : String) ≠ "gpsweek" ∧ ("pdop" : String) ≠ "gpssec" ∧
    (List.lookup ("pdop") (asDataset (1 / 100) sampleData none).floats =
       List.lookup ("pdop") sampleData ∧
     List.lookup ("gpsweek") (asDataset (1 / 100) sampleData none).floats =
       none ∧
     List.lookup ("gpssec") (asDataset (1 / 100) sampleData none).floats =
       none ∧
     (asDataset (1 / 100) sampleData none).time =
       some { val := getCol sampleData ("gpsweek"),
              val2 := getCol sampleData ("gpssec"),
              scale := "gps", fmt := "gps_ws" }) :=
  ⟨by decide, by decide,
   float_fields_passthrough (1 / 100) sampleData none ("pdop")
     (by decide) (by decide)⟩

/-! ## Conversion-graph lemmas -/

theorem withConverted_system (a : SemArray) (tgt : SysName)
    (f : List ℚ → List ℚ) : (a.withConverted tgt f).system = tgt := rfl

theorem withConverted_rows (a : SemArray) (tgt : SysName)
    (f : List ℚ → List ℚ) : (a.withConverted tgt f).rows = a.rows.map f := rfl

theorem bfsAux_sound (E : SysName → SysName → Bool) (target s : SysName) :
    ∀ (fuel : Nat) (queue : List (List SysName)) (visited : List SysName),
      (∀ p ∈ queue, p.getLast? = some s ∧ revChainOk E p = true) →
      ∀ r, bfsAux E target fuel queue visited = some r →
        r.head? = some target ∧ r.getLast? = some s ∧
          revChainOk E r = true := by
  intro fuel
  induction fuel with
  | zero =>
    intro queue visited _ r hr
    simp [bfsAux] at hr
  | succ n ih =>
    intro queue visited hq r hr
    cases queue with
    | nil => simp [bfsAux] at hr
    | cons p rest =>
      cases p with
      | nil =>
        refine ih rest visited (fun q hqm => hq q (List.mem_cons_of_mem _ hqm))
          r ?_
        simpa [bfsAux] using hr
      | cons cur ps =>
        simp only [bfsAux] at hr
        by_cases hcur : cur = target
        · rw [if_pos hcur] at hr
          have hres : cur :: ps = r := by
            injection hr
          subst hres
          have hp := hq (cur :: ps) (List.mem_cons_self _ _)
          exact ⟨by simp [hcur], hp.1, hp.2⟩
        · rw [if_neg hcur] at hr
          refine ih _ _ ?_ r hr
          intro q hqm
          rcases List.mem_append.mp hqm with hm | hm
          · exact hq q (List.mem_cons_of_mem _ hm)
          · rcases List.mem_map.mp hm with ⟨nxt, hnxt, rfl⟩
            have hfilt := (List.mem_filter.mp hnxt).2
            have hedge : E cur nxt = true := by
              simp only [Bool.and_eq_true] at hfilt
              exact hfilt.1
            have hp := hq (cur :: ps) (List.mem_cons_self _ _)
            refine ⟨?_, ?_⟩
            · rw [List.getLast?_cons_cons]
              exact hp.1
            · simp [revChainOk, hedge, hp.2]

theorem findPath_sound (E : SysName → SysName → Bool) (s t : SysName)
    (p : List SysName) (h : findPath E s t = some p) :
    p.head? = some t ∧ p.getLast? = some s ∧ revChainOk E p = true := by
  refine bfsAux_sound E t s 32 [[s]] [s] ?_ p h
  intro q hq
  have : q = [s] := by simpa using hq
  subst this
  exact ⟨rfl, rfl⟩

theorem findPath_self (E : SysName → SysName → Bool) (s : SysName) :
    findPath E s s = some [s] := by
  cases s <;> rfl

theorem composeRev_interp {P : Type} (E : SysName → SysName → Bool)
    (conv : SysName → SysName → List ℚ → List ℚ) (I : SysName → List ℚ → P)
    (hpres : ∀ a b, E a b = true → ∀ r, I b (conv a b r) = I a r)
    (s : SysName) :
    ∀ (rest : List SysName) (a : SysName),
      revChainOk E (a :: rest) = true → (a :: rest).getLast? = some s →
      ∀ r, I a (composeRev conv (a :: rest) r) = I s r := by
  intro rest
  induction rest with
  | nil =>
    intro a _ hlast r
    have : a = s := by simpa using hlast
    subst this
    simp [composeRev]
  | cons b tl ih =>
    intro a hchain hlast r
    have hchain' : E b a = true ∧ revChainOk E (b :: tl) = true := by
      simpa [revChainOk, Bool.and_eq_true] using hchain
    have hlast' : (b :: tl).getLast? = some s := by
      rw [List.getLast?_cons_cons] at hlast
      exact hlast
    calc I a (composeRev conv (a :: b :: tl) r)
        = I a (conv b a (composeRev conv (b :: tl) r)) := by
          simp [composeRev]
      _ = I b (composeRev conv (b :: tl) r) := hpres b a hchain'.1 _
      _ = I s r := ih b hchain'.2 hlast' r

theorem convert_interp {P : Type} (reg : Registry) (I : SysName → List ℚ → P)
    (hpres : ∀ a b, reg.edge a b = true → ∀ r,
      I b (reg.conv a b r) = I a r)
    (x y : SemArray) (tgt : SysName) (h : convert reg x tgt = Except.ok y) :
    y.system = tgt ∧ y.scalar = x.scalar ∧ y.hasVel = x.hasVel ∧
      y.other = x.other ∧ ∃ f, y.rows = x.rows.map f ∧
        ∀ r, I tgt (f r) = I x.system r := by
  by_cases hx : x.system = tgt
  · rw [convert, if_pos hx] at h
    cases h
    exact ⟨hx, rfl, rfl, rfl, id, (List.map_id _).symm,
      fun r => by simp [hx]⟩
  · rw [convert, if_neg hx] at h
    cases hp : findPath reg.edge x.system tgt with
    | none => rw [hp] at h; cases h
    | some p =>
      rw [hp] at h
      cases h
      rcases findPath_sound reg.edge x.system tgt p hp with
        ⟨hhead, hlast, hchain⟩
      cases p with
      | nil => cases hhead
      | cons a tl =>
        have ha : a = tgt := by simpa using hhead
        subst ha
        refine ⟨rfl, rfl, rfl, rfl, composeRev reg.conv (a :: tl), rfl, ?_⟩
        exact composeRev_interp reg.edge reg.conv I hpres x.system tl a
          hchain hlast

/-! ## Theorems for the conversion claims -/

/-- C1: whenever a conversion path is registered from the instance's system
to another system and back, converting there and back yields an instance
whose values equal the original ones (the registered converters being
lossless representation changes, the round trip is exact, in particular
within the 1e-6 relative float tolerance), for scalar and batch instances
alike. -/
theorem pos_roundtrip {P : Type} (reg : Registry) (I : SysName → List ℚ → P)
    (hpres : ∀ a b, reg.edge a b = true → ∀ r,
      I b (reg.conv a b r) = I a r)
    (hinj : ∀ s, Function.Injective (I s))
    (x : SemArray) (tgt : SysName) (y z : SemArray)
    (h1 : convert reg x tgt = Except.ok y)
    (h2 : convert reg y x.system = Except.ok z) : z = x := by
  rcases convert_interp reg I hpres x y tgt h1 with
    ⟨hysys, hysc, hyvel, hyoth, f, hyrows, hf⟩
  rcases convert_interp reg I hpres y z x.system h2 with
    ⟨hzsys, hzsc, hzvel, hzoth, g, hzrows, hg⟩
  have hrows : z.rows = x.rows := by
    rw [hzrows, hyrows, List.map_map]
    have hgf : ∀ r, g (f r) = r := by
      intro r
      apply hinj x.system
      rw [hg (f r), hysys, hf r]
    have : g ∘ f = id := funext hgf
    rw [this, List.map_id]
  cases z with
  | mk zrows zscalar zvel zsys zoth =>
    cases x with
    | mk xrows xscalar xvel xsys xoth =>
      simp only at hrows hzsys hzsc hzvel hzoth hysys hysc hyvel hyoth
      simp [hrows, hzsys, hzsc.trans hysc, hzvel.trans hyvel,
        hzoth.trans hyoth]

theorem regW_pres : ∀ a b, regW.edge a b = true → ∀ r,
    interpW b (regW.conv a b r) = interpW a r := by
  have key : ((fun q : ℚ => q / 2) ∘ fun q : ℚ => q * 2) = id :=
    funext fun q => mul_div_cancel_right₀ q two_ne_zero
  intro a b hab r
  cases a <;> cases b <;> first
  | exact absurd hab (by decide)
  | rfl
  | (show (r.map fun q : ℚ => q * 2).map (fun q : ℚ => q / 2) = r
     rw [List.map_map, key, List.map_id])

theorem interpW_inj : ∀ s, Function.Injective (interpW s) := by
  have hdiv : Function.Injective (fun q : ℚ => q / 2) := by
    intro a b hab
    have h2 : (2 : ℚ) ≠ 0 := two_ne_zero
    calc a = a / 2 * 2 := (div_mul_cancel₀ a h2).symm
      _ = b / 2 * 2 := by rw [show a / 2 = b / 2 from hab]
      _ = b := div_mul_cancel₀ b h2
  intro s
  cases s with
  | llh =>
    intro u v h
    exact List.map_injective_iff.mpr hdiv (by simpa [interpW] using h)
  | trs => exact fun u v h => by simpa [interpW] using h
  | enu => exact fun u v h => by simpa [interpW] using h
  | acr => exact fun u v h => by simpa [interpW] using h

theorem convert_w1 :
    convert regW witnessPos SysName.llh = Except.ok witnessPosLlh := by
  have hfp : findPath regW.edge witnessPos.system SysName.llh =
      some [SysName.llh, SysName.trs] := rfl
  rw [convert, if_neg (by decide), hfp]
  have h : witnessPos.withConverted SysName.llh
      (composeRev regW.conv [SysName.llh, SysName.trs]) = witnessPosLlh := by
    simp only [witnessPos, witnessPosLlh, SemArray.withConverted, composeRev,
      regW, List.map_cons, List.map_nil, SemArray.mk.injEq]
    norm_num
  exact congrArg Except.ok h

theorem convert_w2 :
    convert regW witnessPosLlh witnessPos.system = Except.ok witnessPos := by
  have hfp : findPath regW.edge witnessPosLlh.system witnessPos.system =
      some [SysName.trs, SysName.llh] := rfl
  rw [convert, if_neg (by decide), hfp]
  have h : witnessPosLlh.withConverted witnessPos.system
      (composeRev regW.conv [SysName.trs, SysName.llh]) = witnessPos := by
    simp only [witnessPos, witnessPosLlh, SemArray.withConverted, composeRev,
      regW, List.map_cons, List.map_nil, SemArray.mk.injEq]
    norm_num
  exact congrArg Except.ok h

/-- Witness for C1: under `regW` the `trs` instance `witnessPos` converts to
`llh` as `witnessPosLlh` (values doubled) and back to itself exactly. -/
theorem pos_roundtrip_witness :
    convert regW witnessPos SysName.llh = Except.ok witnessPosLlh ∧
    convert regW witnessPosLlh witnessPos.system = Except.ok witnessPos ∧
    witnessPos = witnessPos :=
  ⟨convert_w1, convert_w2,
   pos_roundtrip regW interpW regW_pres interpW_inj witnessPos SysName.llh
     witnessPosLlh witnessPos convert_w1 convert_w2⟩

/-- C4: requesting conversion to a system unreachable from the instance's
system fails with `UnknownConversionError` naming both the source and the
target system — no other error kind and no partially-built instance — in
all three trigger cases: an absolute instance with no path in the registry,
a delta with no path in the delta registry, and a delta whose reference
point cannot be converted to the system defining the target frame's
orientation. -/
theorem unknown_conversion :
    (∀ (reg : Registry) (x : SemArray) (tgt : SysName),
        findPath reg.edge x.system tgt = none →
        convert reg x tgt =
          Except.error (PosError.unknownConversion x.system tgt)) ∧
    (∀ (absReg : Registry) (dreg : DeltaRegistry) (d : DeltaArray)
        (tgt : SysName),
        findPath dreg.edge d.system tgt = none →
        convertDelta absReg dreg d tgt =
          Except.error (PosError.unknownConversion d.system tgt)) ∧
    (∀ (absReg : Registry) (dreg : DeltaRegistry) (d : DeltaArray)
        (tgt defSys : SysName) (e : PosError),
        dreg.frameDef tgt = some defSys →
        convert absReg d.refPos defSys = Except.error e →
        d.system ≠ tgt →
        convertDelta absReg dreg d tgt =
          Except.error (PosError.unknownConversion d.system tgt)) := by
  refine ⟨?_, ?_, ?_⟩
  · intro reg x tgt hp
    have hne : x.system ≠ tgt := by
      intro h
      rw [h, findPath_self] at hp
      cases hp
    rw [convert, if_neg hne, hp]
  · intro absReg dreg d tgt hp
    have hne : d.system ≠ tgt := by
      intro h
      rw [h, findPath_self] at hp
      cases hp
    rw [convertDelta, if_neg hne]
    by_cases hrs : refSupports absReg d.refPos tgt dreg.frameDef = true
    · rw [if_pos hrs, hp]
    · rw [if_neg hrs]
  · intro absReg dreg d tgt defSys e hfd hconv hne
    have hrs : refSupports absReg d.refPos tgt dreg.frameDef = false := by
      simp only [refSupports, hfd, hconv]
    rw [convertDelta, if_neg hne, if_neg (by simp [hrs])]

/-- Witness for C4: under `regW`/`dregW`, `acr` is unreachable from `trs`
both for the absolute `witnessPos` and for the delta `orphanDelta`, and
converting `orphanDelta` to `enu` fails because its `enu` reference point
cannot reach `llh`, the frame-defining system. -/
theorem unknown_conversion_witness :
    findPath regW.edge witnessPos.system SysName.acr = none ∧
    convert regW witnessPos SysName.acr =
      Except.error (PosError.unknownConversion witnessPos.system
        SysName.acr) ∧
    findPath dregW.edge orphanDelta.system SysName.acr = none ∧
    convertDelta regW dregW orphanDelta SysName.acr =
      Except.error (PosError.unknownConversion orphanDelta.system
        SysName.acr) ∧
    dregW.frameDef SysName.enu = some SysName.llh ∧
    convert regW orphanDelta.refPos SysName.llh =
      Except.error (PosError.unknownConversion SysName.enu SysName.llh) ∧
    orphanDelta.system ≠ SysName.enu ∧
    convertDelta regW dregW orphanDelta SysName.enu =
      Except.error (PosError.unknownConversion orphanDelta.system
        SysName.enu) :=
  ⟨rfl,
   unknown_conversion.1 regW witnessPos SysName.acr rfl,
   rfl,
   unknown_conversion.2.1 regW dregW orphanDelta SysName.acr rfl,
   rfl,
   rfl,
   by decide,
   unknown_conversion.2.2 regW dregW orphanDelta SysName.enu SysName.llh
     (PosError.unknownConversion SysName.enu SysName.llh) rfl rfl
     (by decide)⟩

/-- C5: converting an instance to its own native system is the identity —
the result is the very instance, so its data, its scalar-vs-batch shape and
its type are preserved and no data is copied. -/
theorem self_conversion (reg : Registry) (x : SemArray) :
    convert reg x x.system = Except.ok x := by
  rw [convert, if_pos rfl]

/-- C2: in the concrete scenario, indexing the `enu` delta at row 1 yields a
scalar delta whose reference point holds the Wettzell point `P1`, the `east`
field of the batch delta is `(0.1, 0.4, 0.7)`, and the delta's row 1 is
`(0.4, 0.5, 0.6)`. -/
theorem concrete_scenario :
    (testDelta.getIdx 1).map (fun d => d.refPos.rows) = some [wettzellRow] ∧
    testDelta.east = [0.1, 0.4, 0.7] ∧
    (testDelta.getIdx 1).map (fun d => d.rows) = some [[0.4, 0.5, 0.6]] :=
  ⟨rfl, rfl, rfl⟩

/-- C3: for a batch instance with a row-aligned auxiliary array, integer
indexing projects the auxiliary array to the corresponding single row (not
dropped), and slicing keeps the identically sliced auxiliary array attached,
of length `j - i`. -/
theorem slicing_alignment (a : SemArray) (o : List (List ℚ))
    (ho : a.other = some o) (hlen : o.length = a.rows.length) :
    (∀ (i : Int) (j : Nat), normIdx a.rows.length i = some j →
        (a.getIdx i).map (fun b => b.other) = some (some [rowAt o j])) ∧
    ∀ i j : Nat, i ≤ j → j ≤ a.rows.length →
      (a.sliceIdx i j).other = some (sliceRows o i j) ∧
      (sliceRows o i j).length = j - i := by
  constructor
  · intro i j hj
    rw [SemArray.getIdx, hj]
    simp [SemArray.scalarAt, ho]
  · intro i j hij hj
    constructor
    · simp [SemArray.sliceIdx, ho]
    · simp only [sliceRows, List.length_take, List.length_drop]
      omega

/-- Witness for C3 on `testPos`: index 0 and the slice from 1 to 3. -/
theorem slicing_alignment_witness :
    testPos.other = some [[1, 2, 3], [4, 5, 6], [7, 8, 9]] ∧
    ([[1, 2, 3], [4, 5, 6], [7, 8, 9]] : List (List ℚ)).length =
      testPos.rows.length ∧
    (testPos.getIdx 0).map (fun b => b.other) = some (some [[1, 2, 3]]) ∧
    (testPos.sliceIdx 1 3).other = some [[4, 5, 6], [7, 8, 9]] ∧
    (sliceRows ([[1, 2, 3], [4, 5, 6], [7, 8, 9]] : List (List ℚ)) 1 3).length
      = 3 - 1 := by
  have h := slicing_alignment testPos [[1, 2, 3], [4, 5, 6], [7, 8, 9]]
    rfl rfl
  exact ⟨rfl, rfl, h.1 0 0 rfl, (h.2 1 3 (by decide) (by decide)).1,
    (h.2 1 3 (by decide) (by decide)).2⟩

/-- C6: constructing an instance from a rectangular buffer whose trailing
dimension differs from the declared kind's required width (3 without
velocity, 6 with) fails with a `ShapeError` identifying the expected and
the actual width. -/
theorem shape_error (hasVel : Bool) (data : List (List ℚ)) (scalar : Bool)
    (system : SysName) (other : Option (List (List ℚ))) (w : Nat)
    (hw : ∀ r ∈ data, r.length = w) (hne : w ≠ widthOf hasVel)
    (hdata : data ≠ []) :
    SemArray.new hasVel data scalar system other =
      Except.error (PosError.shapeError (widthOf hasVel) w) := by
  cases data with
  | nil => exact absurd rfl hdata
  | cons r rest =>
    have hr : r.length = w := hw r (List.mem_cons_self _ _)
    have hc : ¬(((r :: rest).all fun q => q.length == widthOf hasVel)
        = true) := by
      simp only [List.all_cons, Bool.and_eq_true, beq_iff_eq, hr]
      exact fun hcon => hne hcon.1
    have htd : trailingDim (r :: rest) = w := by
      simp [trailingDim, hr]
    simp only [SemArray.new]
    rw [if_neg hc, htd]

/-- Witness for C6: a buffer of width-2 rows for a position-only kind. -/
theorem shape_error_witness :
    (∀ r ∈ ([[1, 2]] : List (List ℚ)), r.length = 2) ∧
    (2 : Nat) ≠ widthOf false ∧ ([[1, 2]] : List (List ℚ)) ≠ [] ∧
    SemArray.new false [[1, 2]] true SysName.trs none =
      Except.error (PosError.shapeError (widthOf false) 2) :=
  ⟨by decide, by decide, by decide,
   shape_error false [[1, 2]] true SysName.trs none 2 (by decide) (by decide)
     (by decide)⟩

/-- C7: a batch delta whose reference point has a single row, indexed at any
valid row, yields a scalar delta whose reference point is the original
single-row reference point reused unchanged — the index is never applied to
it. -/
theorem refpoint_broadcast (d : DeltaArray) (i : Int) (j : Nat)
    (href : d.refPos.rows.length = 1)
    (hj : normIdx d.rows.length i = some j) :
    (d.getIdx i).map (fun e => (e.refPos, e.scalar)) =
      some (d.refPos, true) := by
  rw [DeltaArray.getIdx, hj]
  simp [href]

/-- Witness for C7 on the three-row `broadcastDelta`, indexed at row 2. -/
theorem refpoint_broadcast_witness :
    broadcastDelta.refPos.rows.length = 1 ∧
    normIdx broadcastDelta.rows.length 2 = some 2 ∧
    (broadcastDelta.getIdx 2).map (fun e => (e.refPos, e.scalar)) =
      some (broadcastDelta.refPos, true) :=
  ⟨rfl, rfl, refpoint_broadcast broadcastDelta 2 2 rfl rfl⟩

/-- C8: after a system view has been computed and cached, accessing it again
returns the stored instance itself with the state unchanged and performs no
second conversion — views are computed at most once and the cache is never
invalidated. -/
theorem conversion_cached (reg : Registry) (c : CachedArray) (s : SysName)
    (c' : CachedArray) (v : SemArray) (b : Bool)
    (h : accessSystem reg c s = (c', Except.ok v, b)) :
    accessSystem reg c' s = (c', Except.ok v, false) := by
  simp only [accessSystem] at h
  cases hl : List.lookup s c.cache with
  | some w =>
    rw [hl] at h
    injection h with h1 h23
    injection h23 with h2 h3
    injection h2 with hv
    subst h1
    subst hv
    simp [accessSystem, hl]
  | none =>
    rw [hl] at h
    cases hcv : convert reg c.arr s with
    | ok w =>
      rw [hcv] at h
      injection h with h1 h23
      injection h23 with h2 h3
      injection h2 with hv
      subst h1
      subst hv
      simp [accessSystem, List.lookup]
    | error e =>
      rw [hcv] at h
      injection h with h1 h23
      injection h23 with h2 h3
      exact Except.noConfusion h2

theorem access_w1 : accessSystem regW cachedStart SysName.llh =
    (cachedAfter, Except.ok witnessPosLlh, true) := by
  have hl : List.lookup SysName.llh cachedStart.cache = none := rfl
  simp only [accessSystem, hl]
  rw [show convert regW cachedStart.arr SysName.llh =
    Except.ok witnessPosLlh from convert_w1]
  rfl

/-- Witness for C8: computing the `llh` view of `witnessPos` once and
accessing it again. -/
theorem conversion_cached_witness :
    accessSystem regW cachedStart SysName.llh =
      (cachedAfter, Except.ok witnessPosLlh, true) ∧
    accessSystem regW cachedAfter SysName.llh =
      (cachedAfter, Except.ok witnessPosLlh, false) :=
  ⟨access_w1,
   conversion_cached regW cachedStart SysName.llh cachedAfter witnessPosLlh
     true access_w1⟩

end Midgard
